import Mathlib

/-!
# gotestci: the test pipeline of `main.go`

A shallow embedding of `main.go` (package discovery, per-package test run,
aggregation, coverage summary, report) and theorems about it.

Modelling conventions.

* Go strings and byte slices are lists of characters (`Str`).
* The external world (the `go` tool, the file system) is an `Env` of oracles.
  Oracles that are consulted several times in one run are indexed by
  `World.tick`, the number of external interactions made so far, so that two
  runs of the same package may behave differently.
* The mutable world is `World`: the content of `result.out`, the standard
  output and a history of the calls of `testSinglePkg`.
* A Go `panic` that is never recovered is the result `Res.panic`; it carries
  the world in which it happened.
* Standard output is a list of print events; the `%.1f` formatting of floating
  point numbers is not modelled, the event carries the value.
* Go `int` arithmetic on the counters is modelled on `Nat` (a slice cannot have
  `2^63` elements).
-/

namespace GoTestCI

/-- Go `string` / `[]byte`. -/
abbrev Str := List Char

/-- The Go type `TestResult` with its three constants `TEST_RES_PASSED = 1`,
`TEST_RES_FAILED = 2`, `TEST_RES_EMPTY = 3`; no other value is ever built. -/
inductive TestResult where
  | TEST_RES_PASSED
  | TEST_RES_FAILED
  | TEST_RES_EMPTY
deriving DecidableEq, Repr

open TestResult

/-- The Go type `Packages` (`[]string`). -/
abbrev Packages := List Str

/-! ## Library functions -/

/-- Go indexing `s[i]` with an `int` index: `none` is the run-time panic
"index out of range". -/
def goIndex {α : Type} (s : List α) (i : Int) : Option α :=
  if i < 0 then none else s.get? i.toNat

/-- `strings.Split(s, "\n")`: the pieces between newlines, always at least one. -/
def Split : Str → List Str
  | [] => [[]]
  | c :: cs =>
    if c = '\n' then [] :: Split cs
    else
      match Split cs with
      | [] => [[c]]
      | h :: t => (c :: h) :: t

/-- `bytes.SplitN(s, []byte("\n"), 2)`: one piece when `s` has no newline,
otherwise the text before the first newline and the text after it. -/
def SplitN2 (s : Str) : List Str :=
  match s.span (fun c => c != '\n') with
  | (a, []) => [a]
  | (a, _ :: b) => [a, b]

/-! ## The external world -/

/-- What one `go test -coverprofile=tmp.out -covermode=<mode> <pkg>` leaves
behind: whether `cmd.Run()` returned an error, and what
`ioutil.ReadFile(TMP_FILE)` returns afterwards (`none`: a read error). -/
structure ToolRun where
  err : Bool
  profile : Option Str
deriving DecidableEq, Repr

/-- The oracles of the environment. -/
structure Env where
  /-- `go list ./...`: its standard output, `none` when `cmd.Run()` fails. -/
  goList : Option Str
  /-- `go test` for a package and a cover mode, at a given tick. -/
  goTest : Nat → Str → Str → ToolRun
  /-- Whether the `Write` to the result file made at a given tick fails. -/
  writeErr : Nat → Bool
  /-- Whether the `os.Remove(RESULT_FILE)` made at a given tick fails. -/
  removeErr : Nat → Bool
  /-- Whether `os.OpenFile(RESULT_FILE, ...)` fails. -/
  openErr : Bool
  /-- `go tool cover -func=result.out` on a result file of the given content:
  its standard output, `none` when `cmd.Run()` fails. -/
  goCover : Str → Option Str
  /-- `strconv.ParseFloat(s, 64)`, `none` when it returns an error. -/
  parseFloat : Str → Option ℚ

/-- Messages of the diagnostic lines the program prints. -/
inductive Diag where
  /-- "no Go packages found" -/
  | noPackages
  /-- "error: cannot create file for results: ..." -/
  | cannotCreate
  /-- "error: cannot process results: ..." -/
  | cannotProcess
  /-- "cannot parse coverage result" -/
  | cannotParse
  /-- "cannot convert coverage value ..." -/
  | cannotConvert (value : Str)
deriving DecidableEq, Repr

/-- The values a `float64` expression of `PrintResults` can take, up to
rounding: a finite value is given by the real number it approximates. -/
inductive F64 where
  | nan
  | negInf
  | fin (q : ℚ)
deriving DecidableEq

/-- One print on standard output. -/
inductive Out where
  /-- "Progress: %3d%%\r" computed from index `i` and `len(pkgs)`; it ends in a
  carriage return, not in a newline. -/
  | progress (i len : Nat)
  /-- A diagnostic line. -/
  | diag (d : Diag)
  /-- The summary line "status: %s, coverage: %.1f%%, packages with tests: %.1f%%". -/
  | summary (passed : Bool) (coverage : ℚ) (pkgsWithTests : F64)
deriving DecidableEq

/-- History entry: one call of `testSinglePkg`, with what the toolchain
answered and the outcome returned (`none` when the call panicked). -/
structure Call where
  pkgName : Str
  coverMode : Str
  tool : ToolRun
  result : Option TestResult
deriving DecidableEq, Repr

/-- The mutable state of a run. -/
structure World where
  /-- Content of `result.out`. -/
  resultFile : Str
  /-- What has been printed. -/
  stdout : List Out
  /-- History of the calls of `testSinglePkg`, oldest first. -/
  calls : List Call
  /-- Number of external interactions so far. -/
  tick : Nat
deriving DecidableEq

/-- Unrecovered panics. -/
inductive Panic where
  /-- `panic("cannot add coverage profile to result file: ...")` -/
  | writeFailed
  /-- The run-time panic of an index out of range. -/
  | indexOutOfRange
deriving DecidableEq, Repr

/-- Result of a call: it returns a value, or it panics. -/
inductive Res (α : Type) where
  | ok (a : α) (w : World)
  | panic (p : Panic) (w : World)
deriving DecidableEq

/-! ## The program -/

/-- `strInSlice` of `main.go`. -/
def strInSlice (str : Str) : List Str → Bool
  | [] => false
  | s :: rest => if str = s then true else strInSlice str rest

/-- `testSinglePkg` of `main.go`. The deferred `os.Remove(TMP_FILE)` acts on the
temporary file only, whose content is given by the oracle. What a failed
`Write` leaves in the result file is not specified by Go; here it leaves the
file as it was, and no theorem below depends on it. -/
def testSinglePkg (env : Env) (pkgName coverMode : Str) (w : World) : Res TestResult :=
  let t := env.goTest w.tick pkgName coverMode
  let w1 : World := { w with tick := w.tick + 1 }
  let done (r : Option TestResult) (w2 : World) : World :=
    { w2 with calls := w2.calls ++ [⟨pkgName, coverMode, t, r⟩] }
  if t.err then
    -- test failed or error
    .ok TEST_RES_FAILED (done (some TEST_RES_FAILED) w1)
  else
    match t.profile with
    | none =>
      -- no tests found for the package
      .ok TEST_RES_EMPTY (done (some TEST_RES_EMPTY) w1)
    | some rawData =>
      let tmpResult := SplitN2 rawData
      if tmpResult.length < 2 then
        -- tmp file is empty
        .ok TEST_RES_EMPTY (done (some TEST_RES_EMPTY) w1)
      else
        match goIndex tmpResult 1 with
        | none => .panic .indexOutOfRange (done none w1)
        | some body =>
          let w2 : World := { w1 with tick := w1.tick + 1 }
          if env.writeErr w1.tick then
            .panic .writeFailed (done none w2)
          else
            .ok TEST_RES_PASSED
              (done (some TEST_RES_PASSED) { w2 with resultFile := w2.resultFile ++ body })

/-- `WriteCoverMode` of `main.go`; the error of `Write` is ignored there. -/
def WriteCoverMode (env : Env) (coverMode : Str) (w : World) : World :=
  let coverModeHeader := "mode: ".toList ++ coverMode ++ ['\n']
  let w1 : World := { w with tick := w.tick + 1 }
  if env.writeErr w.tick then w1
  else { w1 with resultFile := w1.resultFile ++ coverModeHeader }

/-- The `for i, pkgName := range pkgs` loop of `RunTests`, from index `i`, with
the three local variables as accumulators; `len` is `len(pkgs)`. -/
def RunTestsLoop (env : Env) (exPkgs : Packages) (coverMode : Str) (showProgress : Bool)
    (len : Nat) : List Str → Nat → Bool → Nat → Nat → World → Res (Bool × Nat × Nat)
  | [], _, testPipelineStatus, emptyPkgs, totalTested, w =>
    .ok (testPipelineStatus, emptyPkgs, totalTested) w
  | pkgName :: rest, i, testPipelineStatus, emptyPkgs, totalTested, w =>
    if strInSlice pkgName exPkgs then
      RunTestsLoop env exPkgs coverMode showProgress len rest (i + 1)
        testPipelineStatus emptyPkgs totalTested w
    else
      let totalTested := totalTested + 1
      let w1 : World :=
        if showProgress then { w with stdout := w.stdout ++ [Out.progress i len] } else w
      match testSinglePkg env pkgName coverMode w1 with
      | .panic p w2 => .panic p w2
      | .ok TEST_RES_PASSED w2 =>
        RunTestsLoop env exPkgs coverMode showProgress len rest (i + 1)
          testPipelineStatus emptyPkgs totalTested w2
      | .ok TEST_RES_FAILED w2 =>
        RunTestsLoop env exPkgs coverMode showProgress len rest (i + 1)
          false emptyPkgs totalTested w2
      | .ok TEST_RES_EMPTY w2 =>
        RunTestsLoop env exPkgs coverMode showProgress len rest (i + 1)
          testPipelineStatus (emptyPkgs + 1) totalTested w2

/-- `RunTests` of `main.go`: `(passed, empty, total)`. -/
def RunTests (env : Env) (pkgs exPkgs : Packages) (coverMode : Str) (showProgress : Bool)
    (w : World) : Res (Bool × Nat × Nat) :=
  RunTestsLoop env exPkgs coverMode showProgress pkgs.length pkgs 0 true 0 0 w

/-- `getAllPkgs` of `main.go`: the listed packages, `none` when `go list` fails.
`Split` returns at least one piece, so `pkgs[:len(pkgs)-1]` never panics. -/
def getAllPkgs (env : Env) : Option Packages :=
  match env.goList with
  | none => none
  | some out => some (Split out).dropLast

/-! ### The pattern of `combinedCoverage`

The regular expression is
`total:[ \t]+\([a-z]+\)[ \t]+(?P<Percent>[0-9]*\.[0-9]*)`. Every repeated
class is disjoint from the character that must follow it, so at a given start
there is at most one way to match, the greedy one that Go takes. -/

/-- The class `[ \t]`. -/
def isBlank (c : Char) : Bool := c = ' ' || c = '\t'

/-- The class `[a-z]`. -/
def isLower (c : Char) : Bool := decide ('a'.toNat ≤ c.toNat) && decide (c.toNat ≤ 'z'.toNat)

/-- The class `[0-9]`. -/
def isDigit (c : Char) : Bool := decide ('0'.toNat ≤ c.toNat) && decide (c.toNat ≤ '9'.toNat)

/-- A literal: the rest of the input after it. -/
def lit (pre s : Str) : Option Str :=
  if pre.isPrefixOf s then some (s.drop pre.length) else none

/-- One or more characters of a class, greedily: the matched text and the rest. -/
def many1 (p : Char → Bool) (s : Str) : Option (Str × Str) :=
  match s.span p with
  | ([], _) => none
  | (m, rest) => some (m, rest)

/-- The pattern matched at the very start of `s`: the matched text and the
text of the group `Percent`. -/
def matchHere (s : Str) : Option (Str × Str) :=
  match lit "total:".toList s with
  | none => none
  | some r1 =>
  match many1 isBlank r1 with
  | none => none
  | some (b1, r2) =>
  match lit ['('] r2 with
  | none => none
  | some r3 =>
  match many1 isLower r3 with
  | none => none
  | some (tag, r4) =>
  match lit [')'] r4 with
  | none => none
  | some r5 =>
  match many1 isBlank r5 with
  | none => none
  | some (b2, r6) =>
  match r6.span isDigit with
  | (d1, r7) =>
  match lit ['.'] r7 with
  | none => none
  | some r8 =>
  match r8.span isDigit with
  | (d2, _) =>
    let percent := d1 ++ ['.'] ++ d2
    some ("total:".toList ++ b1 ++ ['('] ++ tag ++ [')'] ++ b2 ++ percent, percent)

/-- `re.FindStringSubmatch(s)`: the leftmost match and its group, or the nil
slice (here `[]`) when the pattern matches nowhere. -/
def FindStringSubmatch : Str → List Str
  | [] => []
  | c :: cs =>
    match matchHere (c :: cs) with
    | some (whole, percent) => [whole, percent]
    | none => FindStringSubmatch cs

/-- The errors `combinedCoverage` returns. -/
inductive CoverageError where
  /-- The error of `cmd.Run()`. -/
  | toolFailed
  /-- `errors.New("coverage parsing failed")` -/
  | parsingFailed
  /-- `errors.New("converting coverage value failed")` -/
  | convertingFailed
deriving DecidableEq, Repr

/-- Printing one event on standard output. -/
def World.print (w : World) (o : Out) : World :=
  { w with stdout := w.stdout ++ [o] }

/-- `combinedCoverage` of `main.go`: the pair `(float64, error)` is an `Except`.
The pattern is a constant that compiles, so the first `panic` is dead. -/
def combinedCoverage (env : Env) (w : World) : Res (Except CoverageError ℚ) :=
  match env.goCover w.resultFile with
  | none => .ok (.error .toolFailed) w
  | some out =>
    let res := Split out
    match goIndex res ((res.length : Int) - 2) with
    | none => .panic .indexOutOfRange w
    | some totalCoverageStr =>
      let parsedResult := FindStringSubmatch totalCoverageStr
      if res.length < 2 then
        .ok (.error .parsingFailed) (w.print (.diag .cannotParse))
      else
        match goIndex parsedResult 1 with
        | none => .panic .indexOutOfRange w
        | some percent =>
          match env.parseFloat percent with
          | none => .ok (.error .convertingFailed) (w.print (.diag (.cannotConvert percent)))
          | some coveragePercent => .ok (.ok coveragePercent) w

/-- `CleanFiles` of `main.go`, as far as the result file goes: the errors of
`os.Remove` are ignored there. -/
def CleanFiles (env : Env) (w : World) : World :=
  let w1 : World := { w with tick := w.tick + 1 }
  if env.removeErr w.tick then w1 else { w1 with resultFile := [] }

/-- The expression `100 * (1 - float64(emptyPkgs)/float64(totalPkgsTested))`:
`0/0` is NaN and `x/0` for `x > 0` is `+Inf` in `float64`. -/
def pkgsWithTests (emptyPkgs totalPkgsTested : Nat) : F64 :=
  if totalPkgsTested = 0 then
    if emptyPkgs = 0 then .nan else .negInf
  else .fin (100 * (1 - (emptyPkgs : ℚ) / (totalPkgsTested : ℚ)))

/-- `PrintResults` of `main.go`. -/
def PrintResults (testPipelinePassed : Bool) (coverage : ℚ) (emptyPkgs totalPkgsTested : Nat)
    (w : World) : World :=
  w.print (.summary testPipelinePassed coverage (pkgsWithTests emptyPkgs totalPkgsTested))

/-- `COVERAGE_MODE_SET` -/
def COVERAGE_MODE_SET : Str := "set".toList

/-- The `return` statement (or the end) through which `main` leaves. -/
inductive Exit where
  /-- `getAllPkgs` returned an error. -/
  | listFailed
  /-- `len(pkgs) < 1` -/
  | noPackages
  /-- `os.OpenFile` returned an error. -/
  | createFailed
  /-- `combinedCoverage` returned an error. -/
  | summarizerFailed (e : CoverageError)
  /-- The end of `main`, after `PrintResults`. -/
  | completed
deriving DecidableEq, Repr

/-- `main` of `main.go`, after `flag.Parse()`: `excludedPkgs` collects the `-e`
flags and `showProgress` is the `-p` flag. `fmt.Errorf` prints nothing. -/
def main (env : Env) (excludedPkgs : Packages) (showProgress : Bool) (w : World) : Res Exit :=
  match getAllPkgs env with
  | none => .ok .listFailed w
  | some pkgs =>
    if pkgs.length < 1 then
      .ok .noPackages (w.print (.diag .noPackages))
    else
      let w1 := CleanFiles env w
      if env.openErr then
        .ok .createFailed (w1.print (.diag .cannotCreate))
      else
        -- set coverage mode
        let coverMode := COVERAGE_MODE_SET
        let w2 := WriteCoverMode env coverMode w1
        -- run all tests
        match RunTests env pkgs excludedPkgs coverMode showProgress w2 with
        | .panic p w3 => .panic p w3
        | .ok (testsPassed, emptyPkgs, totalTested) w3 =>
          -- process combined coverage profile
          match combinedCoverage env w3 with
          | .panic p w4 => .panic p w4
          | .ok (.error e) w4 =>
            .ok (.summarizerFailed e) (w4.print (.diag .cannotProcess))
          | .ok (.ok coverage) w4 =>
            -- remove temp files
            let w5 := CleanFiles env w4
            .ok .completed (PrintResults testsPassed coverage emptyPkgs totalTested w5)

/-- The state in which a process starts: nothing printed, no call made; the
result file of an earlier run may still exist. -/
def World.start (resultFile : Str) : World :=
  { resultFile := resultFile, stdout := [], calls := [], tick := 0 }

/-! ## Vocabulary of the statements -/

/-- Number of diagnostic lines among print events. -/
def diagLines (out : List Out) : Nat :=
  (out.filter (fun o => match o with | .diag _ => true | _ => false)).length

/-- Number of summary lines among print events. -/
def summaryLines (out : List Out) : Nat :=
  (out.filter (fun o => match o with | .summary _ _ _ => true | _ => false)).length

/-- The body of a per-unit profile: everything after its first newline. -/
def bodyOf (profile : Str) : Str :=
  (profile.dropWhile (fun c => c != '\n')).drop 1

/-- Membership in the exclusion list. -/
def excluded (exPkgs : Packages) (pkgName : Str) : Bool := decide (pkgName ∈ exPkgs)

/-- The units of a list that are not in the exclusion list, in order. -/
def included (pkgs exPkgs : Packages) : Packages :=
  pkgs.filter (fun p => !excluded exPkgs p)

/-- The bodies that a list of calls contributes to the combined profile: those
of the calls whose outcome is Passed, in order. -/
def passedBodies (cs : List Call) : Str :=
  (cs.filter (fun c => c.result = some TEST_RES_PASSED)).flatMap
    (fun c => bodyOf (c.tool.profile.getD []))

/-- No call of the list ended in Failed. -/
def noFailure (cs : List Call) : Bool :=
  cs.all (fun c => c.result != some TEST_RES_FAILED)

/-- Number of calls of the list that ended in Empty. -/
def emptyCount (cs : List Call) : Nat :=
  cs.countP (fun c => c.result = some TEST_RES_EMPTY)

/-- Every event of the list is a progress indication. -/
def onlyProgress (out : List Out) : Prop :=
  ∀ o ∈ out, ∃ i n, o = Out.progress i n

/-- The final world of a call. -/
def Res.world {α : Type} : Res α → World
  | .ok _ w => w
  | .panic _ w => w

/-- The value a call returns, `none` when it panics. -/
def Res.value? {α : Type} : Res α → Option α
  | .ok a _ => some a
  | .panic _ _ => none

/-- The history entry of a call made in world `w` that ended with `r`. -/
def callOf (env : Env) (pkgName coverMode : Str) (w : World) (r : Option TestResult) : Call :=
  ⟨pkgName, coverMode, env.goTest w.tick pkgName coverMode, r⟩

/-- The world after a call made in world `w` that ended with `r`, `n` external
interactions later, having appended `body` to the result file. -/
def after (env : Env) (pkgName coverMode : Str) (w : World) (r : Option TestResult)
    (n : Nat) (body : Str) : World :=
  { resultFile := w.resultFile ++ body, stdout := w.stdout,
    calls := w.calls ++ [callOf env pkgName coverMode w r], tick := w.tick + n }

/-- The world in which the loop calls `testSinglePkg`: after the progress
indication, when it is asked for. -/
def progressed (showProgress : Bool) (i len : Nat) (w : World) : World :=
  if showProgress then { w with stdout := w.stdout ++ [Out.progress i len] } else w

/-- The call panicked on a failed write to the result file, and the environment
does have a failing write. -/
def abortedOnWrite {α : Type} (env : Env) (r : Res α) : Prop :=
  (∃ w', r = Res.panic Panic.writeFailed w') ∧ ∃ k, env.writeErr k = true

/-- The world in which `main` calls `RunTests`. -/
def prepared (env : Env) (w : World) : World :=
  WriteCoverMode env COVERAGE_MODE_SET (CleanFiles env w)

/-! ## Sample environments -/

/-- The value of a text of decimal digits. -/
def digitsValue (s : Str) : Nat :=
  s.foldl (fun n c => 10 * n + (c.toNat - '0'.toNat)) 0

/-- What `strconv.ParseFloat` does on a text `digits.digits`, the only texts the
group `Percent` can hold: an error when there is no digit at all, the value
otherwise (the rounding to `float64` and the range error beyond `1.8e308` are
left out). -/
def parseDecimal (s : Str) : Option ℚ :=
  match s.span isDigit with
  | (ip, '.' :: fp) =>
    if fp.all isDigit && !(ip.isEmpty && fp.isEmpty) then
      some ((digitsValue ip : ℚ) + (digitsValue fp : ℚ) / (10 : ℚ) ^ fp.length)
    else none
  | _ => none

/-- A toolchain for four kinds of units: `a` has tests that pass and a coverage
record, `b` fails, `c` has no test (no profile is written), and every other
unit passes with a profile that is the header line alone. -/
def sampleTest (pkgName : Str) : ToolRun :=
  if pkgName = "a".toList then ⟨false, some "mode: set\na.go:1.1,2.2 1 1\n".toList⟩
  else if pkgName = "b".toList then ⟨true, none⟩
  else if pkgName = "c".toList then ⟨false, none⟩
  else ⟨false, some "mode: set\n".toList⟩

/-- An environment listing the given text, with the toolchain `sampleTest`, in
which no file operation fails and the report tool prints the given text. -/
def sampleEnv (listing : Str) (report : Str) : Env :=
  { goList := some listing
    goTest := fun _ pkgName _ => sampleTest pkgName
    writeErr := fun _ => false
    removeErr := fun _ => false
    openErr := false
    goCover := fun _ => some report
    parseFloat := parseDecimal }

/-- The environment `sampleEnv` in which every write to the result file fails. -/
def brokenStoreEnv (listing : Str) (report : Str) : Env :=
  { sampleEnv listing report with writeErr := fun _ => true }

/-- The environment `sampleEnv` in which `go list` fails. -/
def noListEnv : Env :=
  { sampleEnv [] [] with goList := none }

/-- The environment `sampleEnv` in which the result file cannot be created. -/
def noStoreEnv (listing : Str) (report : Str) : Env :=
  { sampleEnv listing report with openErr := true }

/-- The environment `sampleEnv` in which the report tool exits with a non-zero
status. -/
def noReportEnv (listing : Str) : Env :=
  { sampleEnv listing [] with goCover := fun _ => none }

/-- The environment of the scenarios: `sampleTest`, nothing fails. -/
def scenarioEnv : Env := sampleEnv [] []

/-- Scenario: the first unit fails and the second passes. -/
def unitsFailPass : Packages := ["b".toList, "a".toList]

/-- Scenario: `a` passes, `b` is excluded, `c` has no tests. -/
def unitsPassSkipEmpty : Packages := ["a".toList, "b".toList, "c".toList]

/-- The last line `go tool cover -func` prints for a profile without record. -/
def reportZero : Str := "total:\t(statements)\t0.0%\n".toList

/-! ## Lemmas on the library functions -/

theorem strInSlice_eq_excluded (str : Str) (l : List Str) :
    strInSlice str l = excluded l str := by
  induction l with
  | nil => simp [strInSlice, excluded]
  | cons s rest ih =>
    unfold strInSlice
    by_cases h : str = s
    · simp [h, excluded]
    · simp [h, ih, excluded]

theorem SplitN2_cases (raw : Str) :
    ('\n' ∉ raw ∧ SplitN2 raw = [raw]) ∨
    ('\n' ∈ raw ∧ SplitN2 raw = [raw.takeWhile (fun c => c != '\n'), bodyOf raw]) := by
  unfold SplitN2 bodyOf
  rw [List.span_eq_take_drop]
  cases h : raw.dropWhile (fun c => c != '\n') with
  | nil =>
    left
    have h1 := List.dropWhile_eq_nil_iff.mp h
    refine ⟨?_, ?_⟩
    · intro hmem
      have := h1 _ hmem
      simp at this
    · simp only
      congr 1
      exact List.takeWhile_eq_self_iff.mpr h1
  | cons c b =>
    right
    refine ⟨?_, by simp⟩
    by_contra hne
    have : raw.dropWhile (fun c => c != '\n') = [] := by
      apply List.dropWhile_eq_nil_iff.mpr
      intro x hx
      have : x ≠ '\n' := fun hh => hne (hh ▸ hx)
      simpa using this
    rw [this] at h
    cases h

/-! ## Lemmas on `testSinglePkg` -/

theorem testSinglePkg_failed (env : Env) (p m : Str) (w : World)
    (h : (env.goTest w.tick p m).err = true) :
    testSinglePkg env p m w = .ok TEST_RES_FAILED (after env p m w (some TEST_RES_FAILED) 1 []) := by
  simp [testSinglePkg, h, after, callOf]

theorem testSinglePkg_unreadable (env : Env) (p m : Str) (w : World)
    (h : (env.goTest w.tick p m).err = false) (hp : (env.goTest w.tick p m).profile = none) :
    testSinglePkg env p m w = .ok TEST_RES_EMPTY (after env p m w (some TEST_RES_EMPTY) 1 []) := by
  simp [testSinglePkg, h, hp, after, callOf]

theorem testSinglePkg_noNewline (env : Env) (p m : Str) (w : World) (raw : Str)
    (h : (env.goTest w.tick p m).err = false) (hp : (env.goTest w.tick p m).profile = some raw)
    (hn : '\n' ∉ raw) :
    testSinglePkg env p m w = .ok TEST_RES_EMPTY (after env p m w (some TEST_RES_EMPTY) 1 []) := by
  rcases SplitN2_cases raw with ⟨_, hs⟩ | ⟨hc, _⟩
  · simp [testSinglePkg, h, hp, hs, after, callOf]
  · exact absurd hc hn

theorem testSinglePkg_writeFailed (env : Env) (p m : Str) (w : World) (raw : Str)
    (h : (env.goTest w.tick p m).err = false) (hp : (env.goTest w.tick p m).profile = some raw)
    (hn : '\n' ∈ raw) (hw : env.writeErr (w.tick + 1) = true) :
    testSinglePkg env p m w = .panic .writeFailed (after env p m w none 2 []) := by
  rcases SplitN2_cases raw with ⟨hc, _⟩ | ⟨_, hs⟩
  · exact absurd hn hc
  · simp [testSinglePkg, h, hp, hs, hw, after, callOf, goIndex]

theorem testSinglePkg_passed (env : Env) (p m : Str) (w : World) (raw : Str)
    (h : (env.goTest w.tick p m).err = false) (hp : (env.goTest w.tick p m).profile = some raw)
    (hn : '\n' ∈ raw) (hw : env.writeErr (w.tick + 1) = false) :
    testSinglePkg env p m w =
      .ok TEST_RES_PASSED (after env p m w (some TEST_RES_PASSED) 2 (bodyOf raw)) := by
  rcases SplitN2_cases raw with ⟨hc, _⟩ | ⟨_, hs⟩
  · exact absurd hn hc
  · simp [testSinglePkg, h, hp, hs, hw, after, callOf, goIndex]

theorem passedBodies_single (c : Call) :
    passedBodies [c] =
      if c.result = some TEST_RES_PASSED then bodyOf (c.tool.profile.getD []) else [] := by
  unfold passedBodies
  by_cases h : c.result = some TEST_RES_PASSED <;> simp [h]

/-- Every call either returns an outcome, leaving its trace in the history and
appending its body when the outcome is Passed, or panics on a failed write. -/
theorem testSinglePkg_cases (env : Env) (p m : Str) (w : World) :
    (∃ r w', testSinglePkg env p m w = .ok r w' ∧
        w'.calls = w.calls ++ [callOf env p m w (some r)] ∧
        w'.stdout = w.stdout ∧
        w'.resultFile = w.resultFile ++ passedBodies [callOf env p m w (some r)]) ∨
    (∃ w', testSinglePkg env p m w = .panic .writeFailed w' ∧
        w'.calls = w.calls ++ [callOf env p m w none] ∧
        w'.stdout = w.stdout ∧
        w'.resultFile = w.resultFile ∧
        env.writeErr (w.tick + 1) = true) := by
  cases h : (env.goTest w.tick p m).err with
  | true =>
    left
    exact ⟨_, _, testSinglePkg_failed env p m w h, by simp [after],
      by simp [after], by simp [after, passedBodies_single, callOf]⟩
  | false =>
    cases hp : (env.goTest w.tick p m).profile with
    | none =>
      left
      exact ⟨_, _, testSinglePkg_unreadable env p m w h hp, by simp [after],
        by simp [after], by simp [after, passedBodies_single, callOf]⟩
    | some raw =>
      by_cases hn : '\n' ∈ raw
      · cases hw : env.writeErr (w.tick + 1) with
        | true =>
          right
          exact ⟨_, testSinglePkg_writeFailed env p m w raw h hp hn hw, by simp [after],
            by simp [after], by simp [after], rfl⟩
        | false =>
          left
          exact ⟨_, _, testSinglePkg_passed env p m w raw h hp hn hw, by simp [after],
            by simp [after], by simp [after, passedBodies_single, callOf, hp]⟩
      · left
        exact ⟨_, _, testSinglePkg_noNewline env p m w raw h hp hn, by simp [after],
          by simp [after], by simp [after, passedBodies_single, callOf]⟩

/-! ## Lemmas on the loop of `RunTests` -/

theorem RunTestsLoop_skip (env : Env) (ex : Packages) (mode : Str) (sp : Bool) (len : Nat)
    (p : Str) (rest : List Str) (i : Nat) (st : Bool) (e t : Nat) (w : World)
    (hex : strInSlice p ex = true) :
    RunTestsLoop env ex mode sp len (p :: rest) i st e t w =
      RunTestsLoop env ex mode sp len rest (i + 1) st e t w := by
  simp [RunTestsLoop, hex]

theorem RunTestsLoop_ok (env : Env) (ex : Packages) (mode : Str) (sp : Bool) (len : Nat)
    (p : Str) (rest : List Str) (i : Nat) (st : Bool) (e t : Nat) (w : World)
    (r : TestResult) (w2 : World)
    (hex : strInSlice p ex = false)
    (h : testSinglePkg env p mode (progressed sp i len w) = .ok r w2) :
    RunTestsLoop env ex mode sp len (p :: rest) i st e t w =
      RunTestsLoop env ex mode sp len rest (i + 1)
        (st && (some r != some TEST_RES_FAILED))
        (e + (if some r = some TEST_RES_EMPTY then 1 else 0)) (t + 1) w2 := by
  unfold progressed at h
  rw [RunTestsLoop]
  simp only [hex, Bool.false_eq_true, if_false]
  rw [h]
  have hP : (some TEST_RES_PASSED != some TEST_RES_FAILED) = true := by decide
  have hE : (some TEST_RES_EMPTY != some TEST_RES_FAILED) = true := by decide
  cases r <;> simp [hP, hE]

theorem RunTestsLoop_panic (env : Env) (ex : Packages) (mode : Str) (sp : Bool) (len : Nat)
    (p : Str) (rest : List Str) (i : Nat) (st : Bool) (e t : Nat) (w : World)
    (q : Panic) (w2 : World)
    (hex : strInSlice p ex = false)
    (h : testSinglePkg env p mode (progressed sp i len w) = .panic q w2) :
    RunTestsLoop env ex mode sp len (p :: rest) i st e t w = .panic q w2 := by
  unfold progressed at h
  rw [RunTestsLoop]
  simp only [hex, Bool.false_eq_true, if_false]
  rw [h]

theorem progressed_spec (sp : Bool) (i len : Nat) (w : World) :
    (progressed sp i len w).calls = w.calls ∧
    (progressed sp i len w).resultFile = w.resultFile ∧
    ∃ ps, (progressed sp i len w).stdout = w.stdout ++ ps ∧ onlyProgress ps := by
  unfold progressed
  cases sp
  · exact ⟨rfl, rfl, [], by simp, by simp [onlyProgress]⟩
  · exact ⟨rfl, rfl, [Out.progress i len], by simp, by simp [onlyProgress]⟩

theorem included_cons_excluded (p : Str) (rest ex : Packages) (h : strInSlice p ex = true) :
    included (p :: rest) ex = included rest ex := by
  rw [strInSlice_eq_excluded] at h
  simp [included, h]

theorem included_cons_included (p : Str) (rest ex : Packages) (h : strInSlice p ex = false) :
    included (p :: rest) ex = p :: included rest ex := by
  rw [strInSlice_eq_excluded] at h
  simp [included, h]

theorem onlyProgress_append {a b : List Out} (ha : onlyProgress a) (hb : onlyProgress b) :
    onlyProgress (a ++ b) := by
  intro o ho
  rcases List.mem_append.mp ho with h | h
  · exact ha o h
  · exact hb o h

theorem passedBodies_cons (c : Call) (cs : List Call) :
    passedBodies (c :: cs) = passedBodies [c] ++ passedBodies cs := by
  unfold passedBodies
  by_cases h : c.result = some TEST_RES_PASSED <;> simp [List.filter_cons, h]

theorem noFailure_cons (c : Call) (cs : List Call) :
    noFailure (c :: cs) = ((c.result != some TEST_RES_FAILED) && noFailure cs) := by
  simp [noFailure]

theorem emptyCount_cons (c : Call) (cs : List Call) :
    emptyCount (c :: cs) = (if c.result = some TEST_RES_EMPTY then 1 else 0) + emptyCount cs := by
  unfold emptyCount
  by_cases h : c.result = some TEST_RES_EMPTY
  · simp [List.countP_cons, h]; omega
  · simp [List.countP_cons, h]

/-- What a run of the loop does. Either it returns: then the calls made are one
per included unit, in order, each with an outcome, the three results are the
fold of these outcomes, the result file has grown by the bodies of the Passed
calls, and only progress indications were printed. Or it panics on a failed
write: then the calls made are a prefix of the included units, only the last
one is without outcome, and nothing but progress indications was printed. -/
theorem RunTestsLoop_spec (env : Env) (ex : Packages) (mode : Str) (sp : Bool) (len : Nat) :
    ∀ (l : List Str) (i : Nat) (st : Bool) (e t : Nat) (w : World),
    (∃ cs ps w',
        RunTestsLoop env ex mode sp len l i st e t w =
          .ok (st && noFailure cs, e + emptyCount cs, t + cs.length) w' ∧
        w'.calls = w.calls ++ cs ∧
        cs.map Call.pkgName = included l ex ∧
        (∀ c ∈ cs, ∃ r, c.result = some r) ∧
        w'.resultFile = w.resultFile ++ passedBodies cs ∧
        w'.stdout = w.stdout ++ ps ∧ onlyProgress ps) ∨
    (∃ cs c post ps w',
        RunTestsLoop env ex mode sp len l i st e t w = .panic .writeFailed w' ∧
        w'.calls = w.calls ++ cs ++ [c] ∧
        c.result = none ∧
        (∀ c' ∈ cs, ∃ r, c'.result = some r) ∧
        included l ex = (cs ++ [c]).map Call.pkgName ++ post ∧
        w'.stdout = w.stdout ++ ps ∧ onlyProgress ps ∧
        ∃ k, env.writeErr k = true) := by
  intro l
  induction l with
  | nil =>
    intro i st e t w
    left
    refine ⟨[], [], w, ?_, by simp, by simp [included], by simp, by simp [passedBodies],
      by simp, by simp [onlyProgress]⟩
    simp [RunTestsLoop, noFailure, emptyCount]
  | cons p rest ih =>
    intro i st e t w
    cases hex : strInSlice p ex with
    | true =>
      rw [RunTestsLoop_skip env ex mode sp len p rest i st e t w hex,
        included_cons_excluded p rest ex hex]
      exact ih (i + 1) st e t w
    | false =>
      rw [included_cons_included p rest ex hex]
      obtain ⟨hpc, hpf, ps0, hps0, hop0⟩ := progressed_spec sp i len w
      rcases testSinglePkg_cases env p mode (progressed sp i len w) with
        ⟨r, w2, h2, hc2, hs2, hf2⟩ | ⟨w2, h2, hc2, hs2, _, hk⟩
      · rw [RunTestsLoop_ok env ex mode sp len p rest i st e t w r w2 hex h2]
        generalize hc0 : callOf env p mode (progressed sp i len w) (some r) = c0 at hc2 hf2
        have hr0 : c0.result = some r := by rw [← hc0]; rfl
        have hn0 : c0.pkgName = p := by rw [← hc0]; rfl
        rcases ih (i + 1) (st && (some r != some TEST_RES_FAILED))
            (e + (if some r = some TEST_RES_EMPTY then 1 else 0)) (t + 1) w2 with
          ⟨cs, ps, w', heq, hcalls, hnames, hres, hfile, hout, hop⟩ |
          ⟨cs, c, post, ps, w', heq, hcalls, hnone, hres, hnames, hout, hop, hk⟩
        · left
          refine ⟨c0 :: cs, ps0 ++ ps, w', ?_, ?_, ?_, ?_, ?_, ?_, onlyProgress_append hop0 hop⟩
          · rw [heq, noFailure_cons, emptyCount_cons, hr0, Bool.and_assoc]
            have h1 : (e + if some r = some TEST_RES_EMPTY then 1 else 0) + emptyCount cs =
                e + ((if some r = some TEST_RES_EMPTY then 1 else 0) + emptyCount cs) := by omega
            have h3 : t + 1 + cs.length = t + (cs.length + 1) := by omega
            simp only [List.length_cons, h1, h3]
          · rw [hcalls, hc2, hpc]; simp
          · simp [hnames, hn0]
          · intro c hc
            rcases List.mem_cons.mp hc with h | h
            · exact ⟨r, h ▸ hr0⟩
            · exact hres c h
          · rw [hfile, hf2, hpf, passedBodies_cons c0 cs]; simp
          · rw [hout, hs2, hps0]; simp
        · right
          refine ⟨c0 :: cs, c, post, ps0 ++ ps, w', heq, ?_, hnone, ?_, ?_, ?_,
            onlyProgress_append hop0 hop, hk⟩
          · rw [hcalls, hc2, hpc]; simp
          · intro c hc
            rcases List.mem_cons.mp hc with h | h
            · exact ⟨r, h ▸ hr0⟩
            · exact hres c h
          · rw [hnames]; simp [hn0]
          · rw [hout, hs2, hps0]; simp
      · right
        rw [RunTestsLoop_panic env ex mode sp len p rest i st e t w _ w2 hex h2]
        refine ⟨[], callOf env p mode (progressed sp i len w) none, included rest ex, ps0, w2,
          rfl, ?_, rfl, by simp, ?_, ?_, hop0, _, hk⟩
        · rw [hc2, hpc]; simp
        · simp [callOf]
        · rw [hs2, hps0]

/-- `RunTestsLoop_spec` for the whole of `RunTests`. -/
theorem RunTests_spec (env : Env) (pkgs ex : Packages) (mode : Str) (sp : Bool) (w : World) :
    (∃ cs ps w',
        RunTests env pkgs ex mode sp w = .ok (noFailure cs, emptyCount cs, cs.length) w' ∧
        w'.calls = w.calls ++ cs ∧
        cs.map Call.pkgName = included pkgs ex ∧
        (∀ c ∈ cs, ∃ r, c.result = some r) ∧
        w'.resultFile = w.resultFile ++ passedBodies cs ∧
        w'.stdout = w.stdout ++ ps ∧ onlyProgress ps) ∨
    (∃ cs c post ps w',
        RunTests env pkgs ex mode sp w = .panic .writeFailed w' ∧
        w'.calls = w.calls ++ cs ++ [c] ∧
        c.result = none ∧
        (∀ c' ∈ cs, ∃ r, c'.result = some r) ∧
        included pkgs ex = (cs ++ [c]).map Call.pkgName ++ post ∧
        w'.stdout = w.stdout ++ ps ∧ onlyProgress ps ∧
        ∃ k, env.writeErr k = true) := by
  have h := RunTestsLoop_spec env ex mode sp pkgs.length pkgs 0 true 0 0 w
  simpa [RunTests] using h

theorem noFailure_eq_false_iff (cs : List Call) :
    noFailure cs = false ↔ ∃ c ∈ cs, c.result = some TEST_RES_FAILED := by
  unfold noFailure
  rw [← Bool.not_eq_true, List.all_eq_true]
  constructor
  · intro h
    by_contra hne
    apply h
    intro c hc
    have : c.result ≠ some TEST_RES_FAILED := fun hh => hne ⟨c, hc, hh⟩
    simpa using this
  · rintro ⟨c, hc, hr⟩ h
    have := h c hc
    simp [hr] at this

theorem noFailure_eq_true_iff (cs : List Call) (hres : ∀ c ∈ cs, ∃ r, c.result = some r) :
    noFailure cs = true ↔
      ∀ c ∈ cs, c.result = some TEST_RES_PASSED ∨ c.result = some TEST_RES_EMPTY := by
  unfold noFailure
  rw [List.all_eq_true]
  constructor
  · intro h c hc
    obtain ⟨r, hr⟩ := hres c hc
    have := h c hc
    rw [hr] at this ⊢
    cases r <;> simp at this ⊢
  · intro h c hc
    rcases h c hc with hr | hr <;> rw [hr] <;> decide

theorem emptyCount_le_length (cs : List Call) : emptyCount cs ≤ cs.length :=
  List.countP_le_length _

theorem included_not_excluded (pkgs ex : Packages) : ∀ p ∈ included pkgs ex, p ∉ ex := by
  intro p hp
  have := (List.mem_filter.mp hp).2
  simpa [excluded] using this

theorem included_length (pkgs ex : Packages) :
    (included pkgs ex).length = pkgs.length - (pkgs.filter (fun p => decide (p ∈ ex))).length := by
  have h := List.length_eq_length_filter_add (l := pkgs) (fun p => decide (p ∈ ex))
  have h2 : included pkgs ex = pkgs.filter (fun p => !decide (p ∈ ex)) := by
    simp [included, excluded]
  rw [h2]
  omega

theorem RunTestsLoop_dedup (env : Env) (ex : Packages) (mode : Str) (sp : Bool) (len : Nat) :
    ∀ (l : List Str) (i : Nat) (st : Bool) (e t : Nat) (w : World),
    RunTestsLoop env ex.dedup mode sp len l i st e t w =
      RunTestsLoop env ex mode sp len l i st e t w := by
  have hin : ∀ p, strInSlice p ex.dedup = strInSlice p ex := by
    intro p
    simp [strInSlice_eq_excluded, excluded]
  intro l
  induction l with
  | nil => intro i st e t w; simp [RunTestsLoop]
  | cons p rest ih =>
    intro i st e t w
    rw [RunTestsLoop, RunTestsLoop, hin p]
    simp only [ih]

/-! ## Lemmas on `combinedCoverage` and `main` -/

theorem goIndex_some_length {α : Type} (s : List α) (a : α)
    (h : goIndex s ((s.length : Int) - 2) = some a) : ¬ s.length < 2 := by
  unfold goIndex at h
  split at h
  · cases h
  · omega

/-- The four ways in which `combinedCoverage` ends; it never returns the error
"coverage parsing failed". -/
theorem combinedCoverage_cases (env : Env) (w : World) :
    (env.goCover w.resultFile = none ∧
      combinedCoverage env w = .ok (.error .toolFailed) w) ∨
    ((∃ out, env.goCover w.resultFile = some out) ∧
      combinedCoverage env w = .panic .indexOutOfRange w) ∨
    (∃ v, env.parseFloat v = none ∧
      combinedCoverage env w =
        .ok (.error .convertingFailed) (w.print (.diag (.cannotConvert v)))) ∨
    (∃ cov, combinedCoverage env w = .ok (.ok cov) w) := by
  unfold combinedCoverage
  cases hc : env.goCover w.resultFile with
  | none => left; exact ⟨rfl, rfl⟩
  | some out =>
    right
    simp only
    cases hi : goIndex (Split out) (((Split out).length : Int) - 2) with
    | none => left; exact ⟨⟨out, rfl⟩, rfl⟩
    | some line =>
      have hlen := goIndex_some_length _ _ hi
      simp only [hlen, if_false]
      cases hp : goIndex (FindStringSubmatch line) 1 with
      | none => left; exact ⟨⟨out, rfl⟩, rfl⟩
      | some v =>
        right
        simp only
        cases hf : env.parseFloat v with
        | none => left; exact ⟨v, hf, rfl⟩
        | some cov => right; exact ⟨cov, rfl⟩

@[simp] theorem print_stdout (w : World) (o : Out) : (w.print o).stdout = w.stdout ++ [o] := rfl

@[simp] theorem print_calls (w : World) (o : Out) : (w.print o).calls = w.calls := rfl

@[simp] theorem CleanFiles_stdout (env : Env) (w : World) :
    (CleanFiles env w).stdout = w.stdout := by
  unfold CleanFiles
  split <;> rfl

@[simp] theorem CleanFiles_calls (env : Env) (w : World) :
    (CleanFiles env w).calls = w.calls := by
  unfold CleanFiles
  split <;> rfl

@[simp] theorem WriteCoverMode_stdout (env : Env) (mode : Str) (w : World) :
    (WriteCoverMode env mode w).stdout = w.stdout := by
  unfold WriteCoverMode
  split <;> rfl

@[simp] theorem WriteCoverMode_calls (env : Env) (mode : Str) (w : World) :
    (WriteCoverMode env mode w).calls = w.calls := by
  unfold WriteCoverMode
  split <;> rfl

/-- The ways through `main`. -/
theorem main_cases (env : Env) (ex : Packages) (sp : Bool) (w : World) :
    (getAllPkgs env = none ∧ main env ex sp w = .ok .listFailed w) ∨
    (getAllPkgs env = some [] ∧
      main env ex sp w = .ok .noPackages (w.print (.diag .noPackages))) ∨
    (∃ pkgs, getAllPkgs env = some pkgs ∧ pkgs ≠ [] ∧ env.openErr = true ∧
      main env ex sp w = .ok .createFailed ((CleanFiles env w).print (.diag .cannotCreate))) ∨
    (∃ pkgs, getAllPkgs env = some pkgs ∧ pkgs ≠ [] ∧ env.openErr = false ∧
      ((∃ q w3, RunTests env pkgs ex COVERAGE_MODE_SET sp (prepared env w) = .panic q w3 ∧
          main env ex sp w = .panic q w3) ∨
        (∃ r w3, RunTests env pkgs ex COVERAGE_MODE_SET sp (prepared env w) = .ok r w3 ∧
          ((env.goCover w3.resultFile = none ∧
              main env ex sp w =
                .ok (.summarizerFailed .toolFailed) (w3.print (.diag .cannotProcess))) ∨
            ((∃ out, env.goCover w3.resultFile = some out) ∧
              main env ex sp w = .panic .indexOutOfRange w3) ∨
            (∃ v, env.parseFloat v = none ∧
              main env ex sp w =
                .ok (.summarizerFailed .convertingFailed)
                  ((w3.print (.diag (.cannotConvert v))).print (.diag .cannotProcess))) ∨
            (∃ cov, main env ex sp w =
                .ok .completed (PrintResults r.1 cov r.2.1 r.2.2 (CleanFiles env w3))))))) := by
  unfold main
  cases hl : getAllPkgs env with
  | none => left; exact ⟨rfl, rfl⟩
  | some pkgs =>
    right
    cases pkgs with
    | nil => left; exact ⟨rfl, by simp⟩
    | cons p rest =>
      right
      have hlen : ¬ (p :: rest).length < 1 := by simp
      simp only [hlen, if_false]
      cases ho : env.openErr with
      | true => left; exact ⟨p :: rest, rfl, by simp, rfl, by simp⟩
      | false =>
        right
        refine ⟨p :: rest, rfl, by simp, rfl, ?_⟩
        simp only [Bool.false_eq_true, if_false]
        change (∃ q w3, RunTests env (p :: rest) ex COVERAGE_MODE_SET sp (prepared env w) = _ ∧ _) ∨
          (∃ r w3, RunTests env (p :: rest) ex COVERAGE_MODE_SET sp (prepared env w) = _ ∧ _)
        cases hr : RunTests env (p :: rest) ex COVERAGE_MODE_SET sp (prepared env w) with
        | panic q w3 =>
          left
          refine ⟨q, w3, rfl, ?_⟩
          simp only [prepared] at hr
          simp only [hr]
        | ok r w3 =>
          right
          refine ⟨r, w3, rfl, ?_⟩
          obtain ⟨a, b, c⟩ := r
          simp only [prepared] at hr
          simp only [hr]
          rcases combinedCoverage_cases env w3 with ⟨hg, hcc⟩ | ⟨hg, hcc⟩ | ⟨v, hv, hcc⟩ | ⟨cov, hcc⟩
          · left; exact ⟨hg, by rw [hcc]⟩
          · right; left; exact ⟨hg, by rw [hcc]⟩
          · right; right; left; exact ⟨v, hv, by rw [hcc]⟩
          · right; right; right; exact ⟨cov, by rw [hcc]⟩

theorem diagLines_append (a b : List Out) : diagLines (a ++ b) = diagLines a + diagLines b := by
  simp [diagLines]

theorem summaryLines_append (a b : List Out) :
    summaryLines (a ++ b) = summaryLines a + summaryLines b := by
  simp [summaryLines]

theorem diagLines_onlyProgress (ps : List Out) (h : onlyProgress ps) : diagLines ps = 0 := by
  unfold diagLines
  rw [List.length_eq_zero, List.filter_eq_nil_iff]
  intro o ho
  obtain ⟨i, n, rfl⟩ := h o ho
  simp

theorem summaryLines_onlyProgress (ps : List Out) (h : onlyProgress ps) :
    summaryLines ps = 0 := by
  unfold summaryLines
  rw [List.length_eq_zero, List.filter_eq_nil_iff]
  intro o ho
  obtain ⟨i, n, rfl⟩ := h o ho
  simp

/-- What `main` has printed and called when `RunTests` is over: the lines
printed before it are those of the start, and the calls are those of
`RunTests_spec`. -/
theorem prepared_spec (env : Env) (w : World) :
    (prepared env w).stdout = w.stdout ∧ (prepared env w).calls = w.calls := by
  simp [prepared]

/-! ## The claims -/

/-- C1. Unless a write to the result file fails (then `RunTests` panics and
returns nothing), `RunTests` returns, the calls it made are one per non-excluded
unit, in order, and its first result `passed` is false exactly when the outcome
of one of these calls is Failed, and true exactly when every outcome is Passed
or Empty. So an Empty outcome alone never makes it false, and after a Failed
outcome nothing makes it true again. -/
theorem RunTests_passed_iff (env : Env) (pkgs exPkgs : Packages) (coverMode : Str)
    (showProgress : Bool) (w : World) :
    (∃ passed empty total cs w',
        RunTests env pkgs exPkgs coverMode showProgress w = .ok (passed, empty, total) w' ∧
        w'.calls = w.calls ++ cs ∧
        cs.map Call.pkgName = included pkgs exPkgs ∧
        (passed = false ↔ ∃ c ∈ cs, c.result = some TEST_RES_FAILED) ∧
        (passed = true ↔
          ∀ c ∈ cs, c.result = some TEST_RES_PASSED ∨ c.result = some TEST_RES_EMPTY)) ∨
    abortedOnWrite env (RunTests env pkgs exPkgs coverMode showProgress w) := by
  rcases RunTests_spec env pkgs exPkgs coverMode showProgress w with
    ⟨cs, ps, w', heq, hcalls, hnames, hres, _, _, _⟩ |
    ⟨cs, c, post, ps, w', heq, _, _, _, _, _, _, hk⟩
  · left
    exact ⟨_, _, _, cs, w', heq, hcalls, hnames, noFailure_eq_false_iff cs,
      noFailure_eq_true_iff cs hres⟩
  · right
    exact ⟨⟨w', heq⟩, hk⟩

/-- C1 on the scenario "units = [A, B], A fails, B passes": no write fails, so
`RunTests` returns, and `passed` is false with no Empty unit. -/
theorem RunTests_passed_iff_witness :
    (RunTests scenarioEnv unitsFailPass [] "set".toList false (World.start [])).value? =
      some (false, 0, 2) ∧
    ∃ passed empty total cs w',
      RunTests scenarioEnv unitsFailPass [] "set".toList false (World.start []) =
        .ok (passed, empty, total) w' ∧
      w'.calls = (World.start []).calls ++ cs ∧
      cs.map Call.pkgName = included unitsFailPass [] ∧
      (passed = false ↔ ∃ c ∈ cs, c.result = some TEST_RES_FAILED) ∧
      (passed = true ↔
        ∀ c ∈ cs, c.result = some TEST_RES_PASSED ∨ c.result = some TEST_RES_EMPTY) :=
  ⟨by decide,
    (RunTests_passed_iff scenarioEnv unitsFailPass [] "set".toList false
      (World.start [])).resolve_right (fun h => by
        obtain ⟨_, k, hk⟩ := h
        cases hk)⟩

/-- C2. Unless a write to the result file fails, `RunTests` returns and the
units on which it called `testSinglePkg` are, in order, exactly the units of
the list that are not members of the exclusion list, whatever the outcomes:
every call has an outcome, none is on an excluded unit, and no outcome stops
the later calls. -/
theorem RunTests_calls_eq_included (env : Env) (pkgs exPkgs : Packages) (coverMode : Str)
    (showProgress : Bool) (w : World) :
    (∃ r cs w',
        RunTests env pkgs exPkgs coverMode showProgress w = .ok r w' ∧
        w'.calls = w.calls ++ cs ∧
        cs.map Call.pkgName = pkgs.filter (fun p => decide (p ∉ exPkgs)) ∧
        (∀ c ∈ cs, c.pkgName ∉ exPkgs) ∧
        (∀ c ∈ cs, c.result = some TEST_RES_PASSED ∨ c.result = some TEST_RES_FAILED ∨
          c.result = some TEST_RES_EMPTY)) ∨
    abortedOnWrite env (RunTests env pkgs exPkgs coverMode showProgress w) := by
  rcases RunTests_spec env pkgs exPkgs coverMode showProgress w with
    ⟨cs, ps, w', heq, hcalls, hnames, hres, _, _, _⟩ |
    ⟨cs, c, post, ps, w', heq, _, _, _, _, _, _, hk⟩
  · left
    refine ⟨_, cs, w', heq, hcalls, ?_, ?_, ?_⟩
    · rw [hnames]
      simp [included, excluded]
    · intro c hc
      apply included_not_excluded pkgs exPkgs
      rw [← hnames]
      exact List.mem_map_of_mem _ hc
    · intro c hc
      obtain ⟨r, hr⟩ := hres c hc
      rw [hr]
      cases r <;> simp
  · right
    exact ⟨⟨w', heq⟩, hk⟩

/-- C2 on the units `b` (fails), `c` (no tests), `e` (excluded), `a` (passes):
the calls are on `b`, `c`, `a`, in this order. -/
theorem RunTests_calls_eq_included_witness :
    (RunTests scenarioEnv ["b".toList, "c".toList, "e".toList, "a".toList] ["e".toList]
      "set".toList true (World.start [])).world.calls.map Call.pkgName =
      ["b".toList, "c".toList, "a".toList] ∧
    ∃ r cs w',
      RunTests scenarioEnv ["b".toList, "c".toList, "e".toList, "a".toList] ["e".toList]
        "set".toList true (World.start []) = .ok r w' ∧
      w'.calls = (World.start []).calls ++ cs ∧
      cs.map Call.pkgName =
        ["b".toList, "c".toList, "e".toList, "a".toList].filter
          (fun p => decide (p ∉ ["e".toList])) ∧
      (∀ c ∈ cs, c.pkgName ∉ ["e".toList]) ∧
      (∀ c ∈ cs, c.result = some TEST_RES_PASSED ∨ c.result = some TEST_RES_FAILED ∨
        c.result = some TEST_RES_EMPTY) :=
  ⟨by decide,
    (RunTests_calls_eq_included scenarioEnv _ _ "set".toList true
      (World.start [])).resolve_right (fun h => by
        obtain ⟨_, k, hk⟩ := h
        cases hk)⟩

/-- C3. Unless a write to the result file fails, `RunTests` returns and its
third result is the number of entries of the unit list minus the number of its
entries that are members of the exclusion list, whatever the outcomes. Removing
the duplicates of the exclusion list changes nothing in the run. -/
theorem RunTests_total_eq (env : Env) (pkgs exPkgs : Packages) (coverMode : Str)
    (showProgress : Bool) (w : World) :
    ((∃ passed empty w',
        RunTests env pkgs exPkgs coverMode showProgress w =
          .ok (passed, empty,
            pkgs.length - (pkgs.filter (fun p => decide (p ∈ exPkgs))).length) w') ∨
      abortedOnWrite env (RunTests env pkgs exPkgs coverMode showProgress w)) ∧
    RunTests env pkgs exPkgs.dedup coverMode showProgress w =
      RunTests env pkgs exPkgs coverMode showProgress w := by
  refine ⟨?_, ?_⟩
  · rcases RunTests_spec env pkgs exPkgs coverMode showProgress w with
      ⟨cs, ps, w', heq, hcalls, hnames, hres, _, _, _⟩ |
      ⟨cs, c, post, ps, w', heq, _, _, _, _, _, _, hk⟩
    · left
      refine ⟨noFailure cs, emptyCount cs, w', ?_⟩
      rw [heq, ← included_length, ← hnames, List.length_map]
    · right
      exact ⟨⟨w', heq⟩, hk⟩
  · exact RunTestsLoop_dedup env exPkgs coverMode showProgress pkgs.length pkgs 0 true 0 0 w

/-- C3 on the scenario "units = [A, B, C], exclusions = [B], A passes, C has no
tests", with `B` excluded twice: the attempted count is 2, the empty count 1
and the run passes. -/
theorem RunTests_total_eq_witness :
    (RunTests scenarioEnv unitsPassSkipEmpty ["b".toList, "b".toList] "set".toList false
      (World.start [])).value? = some (true, 1, 2) ∧
    RunTests scenarioEnv unitsPassSkipEmpty ["b".toList, "b".toList].dedup "set".toList false
        (World.start []) =
      RunTests scenarioEnv unitsPassSkipEmpty ["b".toList, "b".toList] "set".toList false
        (World.start []) :=
  ⟨by decide,
    (RunTests_total_eq scenarioEnv unitsPassSkipEmpty ["b".toList, "b".toList] "set".toList
      false (World.start [])).2⟩

/-- C6. Unless a write to the result file fails, `RunTests` returns and its
second result is the number of calls, one per non-excluded unit, whose outcome
is Empty; it is at most the third result, the number of calls. -/
theorem RunTests_empty_eq (env : Env) (pkgs exPkgs : Packages) (coverMode : Str)
    (showProgress : Bool) (w : World) :
    (∃ passed empty total cs w',
        RunTests env pkgs exPkgs coverMode showProgress w = .ok (passed, empty, total) w' ∧
        w'.calls = w.calls ++ cs ∧
        cs.map Call.pkgName = included pkgs exPkgs ∧
        empty = (cs.filter (fun c => c.result = some TEST_RES_EMPTY)).length ∧
        total = cs.length ∧
        empty ≤ total) ∨
    abortedOnWrite env (RunTests env pkgs exPkgs coverMode showProgress w) := by
  rcases RunTests_spec env pkgs exPkgs coverMode showProgress w with
    ⟨cs, ps, w', heq, hcalls, hnames, hres, _, _, _⟩ |
    ⟨cs, c, post, ps, w', heq, _, _, _, _, _, _, hk⟩
  · left
    refine ⟨_, _, _, cs, w', heq, hcalls, hnames, ?_, rfl, emptyCount_le_length cs⟩
    simp [emptyCount, List.countP_eq_length_filter]
  · right
    exact ⟨⟨w', heq⟩, hk⟩

/-- C6 on the scenario "units = [A, B, C], exclusions = [B], A passes, C has no
tests": one call of the two ended in Empty. -/
theorem RunTests_empty_eq_witness :
    (RunTests scenarioEnv unitsPassSkipEmpty ["b".toList] "set".toList false
      (World.start [])).value? = some (true, 1, 2) ∧
    ∃ passed empty total cs w',
      RunTests scenarioEnv unitsPassSkipEmpty ["b".toList] "set".toList false
        (World.start []) = .ok (passed, empty, total) w' ∧
      w'.calls = (World.start []).calls ++ cs ∧
      cs.map Call.pkgName = included unitsPassSkipEmpty ["b".toList] ∧
      empty = (cs.filter (fun c => c.result = some TEST_RES_EMPTY)).length ∧
      total = cs.length ∧
      empty ≤ total :=
  ⟨by decide,
    (RunTests_empty_eq scenarioEnv unitsPassSkipEmpty ["b".toList] "set".toList false
      (World.start [])).resolve_right (fun h => by
        obtain ⟨_, k, hk⟩ := h
        cases hk)⟩

theorem WriteCoverMode_spec (env : Env) (mode : Str) (w : World)
    (hw : env.writeErr w.tick = false) :
    (WriteCoverMode env mode w).resultFile = w.resultFile ++ ("mode: ".toList ++ mode ++ ['\n']) ∧
    (WriteCoverMode env mode w).calls = w.calls ∧
    (WriteCoverMode env mode w).stdout = w.stdout := by
  simp [WriteCoverMode, hw]

/-- C4. In an environment in which no write to the result file fails,
`WriteCoverMode` followed by `RunTests` returns, and the result file then holds
what it held before (nothing, for a fresh file), the one header line
`mode: <mode>` and the bodies (the text after the first newline of the profile
the toolchain wrote for the call) of exactly the calls whose outcome is Passed,
in the order of the calls, which is the order of the non-excluded units. -/
theorem combined_profile_content (env : Env) (pkgs exPkgs : Packages) (coverMode : Str)
    (showProgress : Bool) (w : World) (hw : ∀ k, env.writeErr k = false) :
    ∃ r cs w',
      RunTests env pkgs exPkgs coverMode showProgress (WriteCoverMode env coverMode w) =
        .ok r w' ∧
      w'.calls = w.calls ++ cs ∧
      cs.map Call.pkgName = included pkgs exPkgs ∧
      w'.resultFile =
        w.resultFile ++ ("mode: ".toList ++ coverMode ++ ['\n']) ++
          (cs.filter (fun c => c.result = some TEST_RES_PASSED)).flatMap
            (fun c => bodyOf (c.tool.profile.getD [])) := by
  obtain ⟨hf, hc, _⟩ := WriteCoverMode_spec env coverMode w (hw _)
  rcases RunTests_spec env pkgs exPkgs coverMode showProgress (WriteCoverMode env coverMode w)
    with ⟨cs, ps, w', heq, hcalls, hnames, _, hfile, _, _⟩ |
      ⟨cs, c, post, ps, w', _, _, _, _, _, _, _, k, hk⟩
  · refine ⟨_, cs, w', heq, ?_, hnames, ?_⟩
    · rw [hcalls, hc]
    · rw [hfile, hf]
      rfl
  · rw [hw k] at hk
    cases hk

/-- C4, on the units `a` (passes), `b` (fails), `c` (no tests), `e` (excluded)
and `d` (passes, header-only profile): the result file holds the header and the
body of `a`. -/
theorem combined_profile_content_witness :
    (∀ k, (sampleEnv [] []).writeErr k = false) ∧
    (RunTests (sampleEnv [] [])
        ["a".toList, "b".toList, "c".toList, "e".toList, "d".toList] ["e".toList]
        "set".toList false
        (WriteCoverMode (sampleEnv [] []) "set".toList (World.start []))).world.resultFile =
      "mode: set\na.go:1.1,2.2 1 1\n".toList ∧
    ∃ r cs w',
      RunTests (sampleEnv [] [])
          ["a".toList, "b".toList, "c".toList, "e".toList, "d".toList] ["e".toList]
          "set".toList false
          (WriteCoverMode (sampleEnv [] []) "set".toList (World.start [])) = .ok r w' ∧
      w'.calls = (World.start []).calls ++ cs ∧
      cs.map Call.pkgName =
        included ["a".toList, "b".toList, "c".toList, "e".toList, "d".toList] ["e".toList] ∧
      w'.resultFile =
        (World.start []).resultFile ++ ("mode: ".toList ++ "set".toList ++ ['\n']) ++
          (cs.filter (fun c => c.result = some TEST_RES_PASSED)).flatMap
            (fun c => bodyOf (c.tool.profile.getD [])) :=
  ⟨fun _ => rfl, by decide,
    combined_profile_content (sampleEnv [] []) _ _ _ _ _ (fun _ => rfl)⟩

/-- C5 as stated fails: the test invocation exits with status zero, the profile
is readable and is the header line terminated by a newline, with no body after
it, and `testSinglePkg` returns Passed, not Empty. -/
theorem testSinglePkg_headerOnly_passed :
    ((sampleEnv [] []).goTest 0 "d".toList "set".toList).err = false ∧
    ((sampleEnv [] []).goTest 0 "d".toList "set".toList).profile = some "mode: set\n".toList ∧
    bodyOf "mode: set\n".toList = [] ∧
    (testSinglePkg (sampleEnv [] []) "d".toList "set".toList (World.start [])).value? =
      some TEST_RES_PASSED ∧
    (testSinglePkg (sampleEnv [] []) "d".toList "set".toList (World.start [])).value? ≠
      some TEST_RES_EMPTY := by
  decide

/-- C5, amended. When the test invocation exits with status zero and the
profile is readable, `testSinglePkg` returns Empty exactly when the profile
contains no newline (there is no second segment; a profile of zero bytes is
such), and it returns Passed exactly when the profile contains a newline and
the write succeeds; it then has appended the text after the first newline, be
it empty. -/
theorem testSinglePkg_empty_iff_no_newline (env : Env) (pkgName coverMode : Str) (w : World)
    (raw : Str) (hrun : (env.goTest w.tick pkgName coverMode).err = false)
    (hread : (env.goTest w.tick pkgName coverMode).profile = some raw) :
    ((testSinglePkg env pkgName coverMode w).value? = some TEST_RES_EMPTY ↔ '\n' ∉ raw) ∧
    ((testSinglePkg env pkgName coverMode w).value? = some TEST_RES_PASSED ↔
      '\n' ∈ raw ∧ env.writeErr (w.tick + 1) = false) ∧
    ((testSinglePkg env pkgName coverMode w).value? = some TEST_RES_PASSED →
      (testSinglePkg env pkgName coverMode w).world.resultFile = w.resultFile ++ bodyOf raw) ∧
    ((testSinglePkg env pkgName coverMode w).value? = some TEST_RES_EMPTY →
      (testSinglePkg env pkgName coverMode w).world.resultFile = w.resultFile) := by
  by_cases hn : '\n' ∈ raw
  · cases hwrite : env.writeErr (w.tick + 1) with
    | false =>
      rw [testSinglePkg_passed env pkgName coverMode w raw hrun hread hn hwrite]
      simp [Res.value?, Res.world, after, hn]
    | true =>
      rw [testSinglePkg_writeFailed env pkgName coverMode w raw hrun hread hn hwrite]
      simp [Res.value?, Res.world, after, hn]
  · rw [testSinglePkg_noNewline env pkgName coverMode w raw hrun hread hn]
    simp [Res.value?, Res.world, after, hn]

/-- C5 amended, on the unit `d` of the sample environment, whose profile is the
header line and its newline: the outcome is Passed and nothing is appended. -/
theorem testSinglePkg_empty_iff_no_newline_witness :
    ((sampleEnv [] []).goTest 0 "d".toList "set".toList).err = false ∧
    ((sampleEnv [] []).goTest 0 "d".toList "set".toList).profile =
      some "mode: set\n".toList ∧
    (testSinglePkg (sampleEnv [] []) "d".toList "set".toList (World.start [])).value? =
      some TEST_RES_PASSED ∧
    (testSinglePkg (sampleEnv [] []) "d".toList "set".toList
      (World.start [])).world.resultFile = [] :=
  ⟨rfl, rfl,
    ((testSinglePkg_empty_iff_no_newline (sampleEnv [] []) "d".toList "set".toList
      (World.start []) "mode: set\n".toList rfl rfl).2.1).mpr ⟨by decide, rfl⟩,
    by decide⟩

/-- C7. A failed append is fatal. (1) When the test invocation of a call exits
with status zero, its profile is readable and has a body segment, and the write
of that body fails, `testSinglePkg` returns no outcome: it panics, and the call
is in the history without outcome. (2) When `RunTests` panics, the panic is
that one, the call without outcome is the last call made, every earlier call
has an outcome, and the calls made are a prefix of the non-excluded units: the
units after the failing one are not attempted. (3) When `RunTests` returns,
every call it made has an outcome. (4) When `main` panics on the failed write,
the same holds of the listed units and `main` has printed no summary line and
no diagnostic line. (5) When `main` returns, every call made has an outcome. -/
theorem append_failure_is_fatal (env : Env) (pkgs exPkgs : Packages) (showProgress : Bool)
    (w : World) :
    (∀ pkgName coverMode w0 raw,
      (env.goTest w0.tick pkgName coverMode).err = false →
      (env.goTest w0.tick pkgName coverMode).profile = some raw →
      '\n' ∈ raw →
      env.writeErr (w0.tick + 1) = true →
      ∃ w1, testSinglePkg env pkgName coverMode w0 = .panic .writeFailed w1 ∧
        w1.calls =
          w0.calls ++ [⟨pkgName, coverMode, env.goTest w0.tick pkgName coverMode, none⟩] ∧
        w1.stdout = w0.stdout) ∧
    (∀ coverMode q w', RunTests env pkgs exPkgs coverMode showProgress w = .panic q w' →
      q = .writeFailed ∧
      ∃ cs c post,
        w'.calls = w.calls ++ cs ++ [c] ∧
        c.result = none ∧
        (∀ c' ∈ cs, ∃ o, c'.result = some o) ∧
        included pkgs exPkgs = (cs ++ [c]).map Call.pkgName ++ post) ∧
    (∀ coverMode r w', RunTests env pkgs exPkgs coverMode showProgress w = .ok r w' →
      ∃ cs, w'.calls = w.calls ++ cs ∧ ∀ c ∈ cs, ∃ o, c.result = some o) ∧
    (∀ w', main env exPkgs showProgress w = .panic .writeFailed w' →
      ∃ listed cs c post,
        getAllPkgs env = some listed ∧
        w'.calls = w.calls ++ cs ++ [c] ∧
        c.result = none ∧
        (∀ c' ∈ cs, ∃ o, c'.result = some o) ∧
        included listed exPkgs = (cs ++ [c]).map Call.pkgName ++ post ∧
        summaryLines w'.stdout = summaryLines w.stdout ∧
        diagLines w'.stdout = diagLines w.stdout) ∧
    (∀ x w', main env exPkgs showProgress w = .ok x w' →
      ∃ cs, w'.calls = w.calls ++ cs ∧ ∀ c ∈ cs, ∃ o, c.result = some o) := by
  refine ⟨?_, ?_, ?_, ?_, ?_⟩
  · intro p m w0 raw herr hprof hn hwr
    exact ⟨_, testSinglePkg_writeFailed env p m w0 raw herr hprof hn hwr, rfl, rfl⟩
  · intro mode q w' h
    rcases RunTests_spec env pkgs exPkgs mode showProgress w with
      ⟨cs, ps, w4, heq, _⟩ | ⟨cs, c, post, ps, w4, heq, hcalls, hnone, hres, hnames, _⟩
    · rw [h] at heq
      cases heq
    · rw [h] at heq
      injection heq with hq hw
      subst hw
      exact ⟨hq, cs, c, post, hcalls, hnone, hres, hnames⟩
  · intro mode r w' h
    rcases RunTests_spec env pkgs exPkgs mode showProgress w with
      ⟨cs, ps, w4, heq, hcalls, _, hres, _⟩ | ⟨cs, c, post, ps, w4, heq, _⟩
    · rw [h] at heq
      injection heq with _ hw
      subst hw
      exact ⟨cs, hcalls, hres⟩
    · rw [h] at heq
      cases heq
  · intro w' h
    rcases main_cases env exPkgs showProgress w with
      ⟨_, hm⟩ | ⟨_, hm⟩ | ⟨listed, _, _, _, hm⟩ | ⟨listed, hl, _, _, hrun⟩
    · rw [hm] at h; cases h
    · rw [hm] at h; cases h
    · rw [hm] at h; cases h
    · rcases hrun with ⟨q, w3, hr, hm⟩ | ⟨r, w3, hr, hsum⟩
      · rw [hm] at h
        injection h with hq hw
        subst hw
        rcases RunTests_spec env listed exPkgs COVERAGE_MODE_SET showProgress (prepared env w)
          with ⟨cs, ps, w4, heq, _⟩ |
            ⟨cs, c, post, ps, w4, heq, hcalls, hnone, hres, hnames, hout, hop, _⟩
        · rw [hr] at heq
          cases heq
        · rw [hr] at heq
          injection heq with _ hw
          subst hw
          refine ⟨listed, cs, c, post, hl, ?_, hnone, hres, hnames, ?_, ?_⟩
          · rw [hcalls, (prepared_spec env w).2]
          · rw [hout, (prepared_spec env w).1, summaryLines_append,
              summaryLines_onlyProgress ps hop]
            rfl
          · rw [hout, (prepared_spec env w).1, diagLines_append, diagLines_onlyProgress ps hop]
            rfl
      · rcases hsum with ⟨_, hm⟩ | ⟨_, hm⟩ | ⟨v, _, hm⟩ | ⟨cov, hm⟩
        · rw [hm] at h; cases h
        · rw [hm] at h; cases h
        · rw [hm] at h; cases h
        · rw [hm] at h; cases h
  · intro x w' h
    rcases main_cases env exPkgs showProgress w with
      ⟨_, hm⟩ | ⟨_, hm⟩ | ⟨listed, _, _, _, hm⟩ | ⟨listed, hl, _, _, hrun⟩
    · rw [hm] at h
      injection h with _ hw
      exact ⟨[], by simp [← hw], by simp⟩
    · rw [hm] at h
      injection h with _ hw
      exact ⟨[], by simp [← hw], by simp⟩
    · rw [hm] at h
      injection h with _ hw
      exact ⟨[], by simp [← hw], by simp⟩
    · rcases hrun with ⟨q, w3, hr, hm⟩ | ⟨r, w3, hr, hsum⟩
      · rw [hm] at h; cases h
      · rcases RunTests_spec env listed exPkgs COVERAGE_MODE_SET showProgress (prepared env w)
          with ⟨cs, ps, w4, heq, hcalls, _, hres, _⟩ | ⟨cs, c, post, ps, w4, heq, _⟩
        · rw [hr] at heq
          injection heq with _ hw4
          subst hw4
          have hc3 : w3.calls = w.calls ++ cs := by rw [hcalls, (prepared_spec env w).2]
          rcases hsum with ⟨_, hm⟩ | ⟨_, hm⟩ | ⟨v, _, hm⟩ | ⟨cov, hm⟩
          · rw [hm] at h
            injection h with _ hw
            exact ⟨cs, by simp [← hw, hc3], hres⟩
          · rw [hm] at h; cases h
          · rw [hm] at h
            injection h with _ hw
            exact ⟨cs, by simp [← hw, hc3], hres⟩
          · rw [hm] at h
            injection h with _ hw
            exact ⟨cs, by simp [← hw, hc3, PrintResults], hres⟩
        · rw [hr] at heq
          cases heq

/-- C7, on the units `b` (fails), `a` (passes, but the write fails) and `c`:
`main` panics, the call on `a` is the last one and has no outcome, `c` is never
attempted, and nothing is printed. -/
theorem append_failure_is_fatal_witness :
    (main (brokenStoreEnv "b\na\nc\n".toList reportZero) [] false (World.start [])).value? =
      none ∧
    (main (brokenStoreEnv "b\na\nc\n".toList reportZero) [] false
      (World.start [])).world.calls.map (fun c => (c.pkgName, c.result)) =
      [("b".toList, some TEST_RES_FAILED), ("a".toList, none)] ∧
    (main (brokenStoreEnv "b\na\nc\n".toList reportZero) [] false
      (World.start [])).world.stdout = [] ∧
    ∃ listed cs c post,
      getAllPkgs (brokenStoreEnv "b\na\nc\n".toList reportZero) = some listed ∧
      (main (brokenStoreEnv "b\na\nc\n".toList reportZero) [] false
        (World.start [])).world.calls = (World.start []).calls ++ cs ++ [c] ∧
      c.result = none ∧
      (∀ c' ∈ cs, ∃ o, c'.result = some o) ∧
      included listed [] = (cs ++ [c]).map Call.pkgName ++ post ∧
      summaryLines (main (brokenStoreEnv "b\na\nc\n".toList reportZero) [] false
        (World.start [])).world.stdout = summaryLines (World.start []).stdout ∧
      diagLines (main (brokenStoreEnv "b\na\nc\n".toList reportZero) [] false
        (World.start [])).world.stdout = diagLines (World.start []).stdout :=
  ⟨by decide, by decide, by decide,
    (append_failure_is_fatal (brokenStoreEnv "b\na\nc\n".toList reportZero) [] [] false
      (World.start [])).2.2.2.1 _ rfl⟩

/-- C8 fails on the code. The report tool exits with status zero. When its
last non-empty line `ok` does not contain the pattern, `combinedCoverage`
panics on `parsedResult[1]`; when its output is empty (one segment),
`combinedCoverage` panics on `res[len(res)-2]`. In neither case does it return
an error. Only the pattern with the malformed percentage `.` gives the
error. -/
theorem combinedCoverage_panics_without_pattern :
    combinedCoverage (sampleEnv [] "ok\n".toList) (World.start []) =
      .panic .indexOutOfRange (World.start []) ∧
    combinedCoverage (sampleEnv [] []) (World.start []) =
      .panic .indexOutOfRange (World.start []) ∧
    (combinedCoverage (sampleEnv [] "total:\t(statements)\t.\n".toList)
      (World.start [])).value? = some (.error .convertingFailed) :=
  ⟨rfl, rfl, rfl⟩

/-- C9 fails on the code. When `go list` fails, `main` leaves through its first
`return` in the world in which it started: `fmt.Errorf` builds the message
"cannot get package list: ..." and discards it, so no diagnostic line is
printed, where one is due. -/
theorem main_listing_failure_prints_nothing (env : Env) (excludedPkgs : Packages)
    (showProgress : Bool) (w : World) (h : env.goList = none) :
    main env excludedPkgs showProgress w = .ok .listFailed w ∧
    (main env excludedPkgs showProgress w).world.stdout = w.stdout ∧
    diagLines (main env excludedPkgs showProgress w).world.stdout = diagLines w.stdout ∧
    summaryLines (main env excludedPkgs showProgress w).world.stdout =
      summaryLines w.stdout := by
  have hm : main env excludedPkgs showProgress w = .ok .listFailed w := by
    simp [main, getAllPkgs, h]
  rw [hm]
  exact ⟨rfl, rfl, rfl, rfl⟩

/-- C9 on a process that starts with a failing `go list`: nothing at all is
printed, while the two fatal paths next to it, no unit listed and no result
file, print their one diagnostic line. -/
theorem main_listing_failure_prints_nothing_witness :
    noListEnv.goList = none ∧
    (main noListEnv [] false (World.start [])).world.stdout = [] ∧
    diagLines (main noListEnv [] false (World.start [])).world.stdout = 0 ∧
    (main (sampleEnv [] reportZero) [] false (World.start [])).world.stdout =
      [.diag .noPackages] ∧
    (main (noStoreEnv "a\n".toList reportZero) [] false (World.start [])).world.stdout =
      [.diag .cannotCreate] :=
  ⟨rfl,
    (main_listing_failure_prints_nothing noListEnv [] false (World.start []) rfl).2.1,
    (main_listing_failure_prints_nothing noListEnv [] false (World.start []) rfl).2.2.1,
    by decide, by decide⟩

/-- When the report tool prints the pattern with the percentage `.`, the
conversion fails and the run ends with two diagnostic lines, the one of
`combinedCoverage` and the one of `main`. -/
theorem main_conversion_failure_two_lines :
    (main (sampleEnv "a\n".toList "total:\t(statements)\t.\n".toList) [] false
      (World.start [])).value? = some (.summarizerFailed .convertingFailed) ∧
    (main (sampleEnv "a\n".toList "total:\t(statements)\t.\n".toList) [] false
      (World.start [])).world.stdout =
      [.diag (.cannotConvert ['.']), .diag .cannotProcess] ∧
    diagLines (main (sampleEnv "a\n".toList "total:\t(statements)\t.\n".toList) [] false
      (World.start [])).world.stdout = 2 := by
  decide

/-- Each of the five ways out of `main` that print a line is taken by some
run. -/
theorem main_exits_reachable :
    (main (sampleEnv [] reportZero) [] false (World.start [])).value? = some .noPackages ∧
    (main (noStoreEnv "a\n".toList reportZero) [] false (World.start [])).value? =
      some .createFailed ∧
    (main (noReportEnv "a\n".toList) [] false (World.start [])).value? =
      some (.summarizerFailed .toolFailed) ∧
    (main (sampleEnv "a\n".toList "total:\t(statements)\t.\n".toList) [] true
      (World.start [])).value? = some (.summarizerFailed .convertingFailed) ∧
    (main (sampleEnv "a\nb\n".toList reportZero) [] true (World.start [])).value? =
      some .completed := by
  decide

/-- C10 as stated fails: the one listed unit is excluded, `RunTests` returns the
attempted count 0, and `main` completes all the same: `PrintResults` is reached
with `totalPkgsTested = 0` and prints the fraction `0/0`, which is NaN. -/
theorem main_divides_by_zero :
    (RunTests (sampleEnv "a\n".toList reportZero) ["a".toList] ["a".toList] COVERAGE_MODE_SET
      false (prepared (sampleEnv "a\n".toList reportZero) (World.start []))).value? =
      some (true, 0, 0) ∧
    (main (sampleEnv "a\n".toList reportZero) ["a".toList] false (World.start [])).value? =
      some .completed ∧
    (∃ cov, (main (sampleEnv "a\n".toList reportZero) ["a".toList] false
      (World.start [])).world.stdout = [.summary true cov (pkgsWithTests 0 0)]) ∧
    pkgsWithTests 0 0 = F64.nan :=
  ⟨by decide, by decide, ⟨_, rfl⟩, rfl⟩

/-- C10, amended. When `main` completes, the summary line it prints carries the
fraction `100 * (1 - emptyCount/attemptedCount)` of the counts of `RunTests`,
where `attemptedCount` is the number of listed units that are not excluded and
`emptyCount` the number of those whose outcome is Empty. `main` does not guard
the division: `attemptedCount` is 0 exactly when every listed unit is excluded,
and the fraction printed is then NaN. -/
theorem main_completed_fraction (env : Env) (excludedPkgs : Packages) (showProgress : Bool)
    (w w' : World) (h : main env excludedPkgs showProgress w = .ok .completed w') :
    ∃ pkgs cs ps cov,
      getAllPkgs env = some pkgs ∧
      w'.calls = w.calls ++ cs ∧
      cs.map Call.pkgName = included pkgs excludedPkgs ∧
      onlyProgress ps ∧
      w'.stdout = w.stdout ++ ps ++
        [.summary (noFailure cs) cov (pkgsWithTests (emptyCount cs) cs.length)] ∧
      (0 < cs.length →
        pkgsWithTests (emptyCount cs) cs.length =
          .fin (100 * (1 - (emptyCount cs : ℚ) / (cs.length : ℚ)))) ∧
      (cs.length = 0 → pkgsWithTests (emptyCount cs) cs.length = .nan) ∧
      (cs.length = 0 ↔ ∀ p ∈ pkgs, p ∈ excludedPkgs) := by
  rcases main_cases env excludedPkgs showProgress w with
    ⟨_, hm⟩ | ⟨_, hm⟩ | ⟨pkgs, _, _, _, hm⟩ | ⟨pkgs, hl, _, _, hrun⟩
  · rw [hm] at h; cases h
  · rw [hm] at h; cases h
  · rw [hm] at h; cases h
  · rcases hrun with ⟨q, w3, _, hm⟩ | ⟨r, w3, hr, hsum⟩
    · rw [hm] at h; cases h
    · rcases hsum with ⟨_, hm⟩ | ⟨_, hm⟩ | ⟨v, _, hm⟩ | ⟨cov, hm⟩
      · rw [hm] at h; cases h
      · rw [hm] at h; cases h
      · rw [hm] at h; cases h
      · rw [hm] at h
        injection h with _ hw
        subst hw
        rcases RunTests_spec env pkgs excludedPkgs COVERAGE_MODE_SET showProgress (prepared env w)
          with ⟨cs, ps, w4, heq, hcalls, hnames, _, _, hout, hop⟩ |
            ⟨cs, c, post, ps, w4, heq, _, _, _, _, _, _, _⟩
        · rw [hr] at heq
          injection heq with hres hw
          subst hw
          subst hres
          refine ⟨pkgs, cs, ps, cov, hl, ?_, hnames, hop, ?_, ?_, ?_, ?_⟩
          · simp [PrintResults, hcalls, (prepared_spec env w).2]
          · simp [PrintResults, hout, (prepared_spec env w).1]
          · intro hpos
            have : cs.length ≠ 0 := by omega
            simp [pkgsWithTests, this]
          · intro hz
            have he : emptyCount cs = 0 := by
              have := emptyCount_le_length cs
              omega
            simp [pkgsWithTests, hz, he]
          · rw [← List.length_map cs Call.pkgName, hnames, List.length_eq_zero]
            simp [included, excluded, List.filter_eq_nil_iff]
        · rw [hr] at heq
          cases heq

/-- C10 amended, on the units `a` (passes) and `c` (no tests): the run
completes and the fraction printed is that of one unit in two. -/
theorem main_completed_fraction_witness :
    main (sampleEnv "a\nc\n".toList reportZero) [] false (World.start []) =
      .ok .completed
        (main (sampleEnv "a\nc\n".toList reportZero) [] false (World.start [])).world ∧
    ∃ pkgs cs ps cov,
      getAllPkgs (sampleEnv "a\nc\n".toList reportZero) = some pkgs ∧
      (main (sampleEnv "a\nc\n".toList reportZero) [] false (World.start [])).world.calls =
        (World.start []).calls ++ cs ∧
      cs.map Call.pkgName = included pkgs [] ∧
      onlyProgress ps ∧
      (main (sampleEnv "a\nc\n".toList reportZero) [] false (World.start [])).world.stdout =
        (World.start []).stdout ++ ps ++
          [.summary (noFailure cs) cov (pkgsWithTests (emptyCount cs) cs.length)] ∧
      (0 < cs.length →
        pkgsWithTests (emptyCount cs) cs.length =
          .fin (100 * (1 - (emptyCount cs : ℚ) / (cs.length : ℚ)))) ∧
      (cs.length = 0 → pkgsWithTests (emptyCount cs) cs.length = .nan) ∧
      (cs.length = 0 ↔ ∀ p ∈ pkgs, p ∈ ([] : Packages)) :=
  ⟨rfl, main_completed_fraction (sampleEnv "a\nc\n".toList reportZero) [] false
    (World.start []) _ rfl⟩

end GoTestCI
